import Mathlib

/-!
Shallow embedding of the metratec RFID reader driver (reader.py) and proofs
about its command framer, response collector, identity check, inventory
decoder, tag-operation decoder and EPC rewrite workflow.

Python strings are modelled as lists of characters (PyStr); Python dict-based
tag records are modelled as insertion-ordered association lists; fallible
Python code paths (uncaught IndexError / ValueError) are modelled with an
explicit crash constructor, while raised RfidReaderException values are
modelled as an error constructor carrying the exact message string.
-/

/-- Python strings are sequences of code points; we model them as lists of
characters. -/
abbrev PyStr := List Char

/-- Conversion from a Lean string literal to the PyStr model. -/
def pstr (s : String) : PyStr := s.toList

/-- Python slice s[:-2] : drop the last two characters (fewer if short). -/
def dropLast2 (l : PyStr) : PyStr := l.dropLast.dropLast

/-- Python indexing s[i] for a non-negative index, None modelling IndexError. -/
def pyGet (l : List α) (i : Nat) : Option α := l[i]?

/-- Python slice s[a:b] for non-negative bounds (clamping, never failing). -/
def pySlice (l : PyStr) (a b : Nat) : PyStr := (l.drop a).take (b - a)

/-- Index of the last occurrence of a character, as Python str.rindex
(None models the ValueError raised when the character is absent). -/
def rindexChar : PyStr → Char → Option Nat
  | [], _ => none
  | a :: rest, c =>
    match rindexChar rest c with
    | some i => some (i + 1)
    | none => if a = c then some 0 else none

/-- Python str.split(sep) for a one-character separator sep. -/
def splitOnChar (sep : Char) : PyStr → List PyStr
  | [] => [[]]
  | c :: rest =>
    if c = sep then [] :: splitOnChar sep rest
    else
      match splitOnChar sep rest with
      | [] => [[c]]
      | g :: gs => (c :: g) :: gs

/-- Python ",".join(parts). -/
def joinComma : List PyStr → PyStr
  | [] => []
  | [x] => x
  | x :: xs => x ++ ',' :: joinComma xs

/-- Does the needle occur at the start of the haystack. -/
def leadMatch : PyStr → PyStr → Bool
  | [], _ => true
  | _ :: _, [] => false
  | a :: as_, b :: bs => a = b && leadMatch as_ bs

/-- Python substring containment: needle in haystack. -/
def containsSub (hay needle : PyStr) : Bool :=
  match hay with
  | [] => leadMatch needle []
  | c :: t => leadMatch needle (c :: t) || containsSub t needle

/-- Decimal digits of a natural number, via an always-sufficient fuel so the
definition is structural and kernel-evaluable. -/
def natToStrF : Nat → Nat → PyStr
  | 0, _ => []
  | fuel + 1, n =>
    if n < 10 then [Nat.digitChar n]
    else natToStrF fuel (n / 10) ++ [Nat.digitChar (n % 10)]

/-- Python str(n) for a non-negative integer n. -/
def natToStr (n : Nat) : PyStr := natToStrF (n + 1) n

/-- Value of a list of decimal digit characters (0 when empty). -/
def digitsVal (l : PyStr) : Nat :=
  l.foldl (fun acc c => acc * 10 + (c.toNat - 48)) 0

/-- Is the character a decimal digit. -/
def isDigitCh (c : Char) : Bool := 48 ≤ c.toNat && c.toNat ≤ 57

/-- Python int(s) for decimal strings with optional leading minus sign;
None models the ValueError raised on malformed input. -/
def parseIntOpt (l : PyStr) : Option Int :=
  match l with
  | '-' :: rest =>
    if rest ≠ [] && rest.all isDigitCh then some (-(digitsVal rest : Int)) else none
  | _ => if l ≠ [] && l.all isDigitCh then some (digitsVal l : Int) else none

/-- Value of a hexadecimal digit character, None when not a hex digit. -/
def hexDigitVal (c : Char) : Option Nat :=
  if 48 ≤ c.toNat ∧ c.toNat ≤ 57 then some (c.toNat - 48)
  else if 65 ≤ c.toNat ∧ c.toNat ≤ 70 then some (c.toNat - 55)
  else if 97 ≤ c.toNat ∧ c.toNat ≤ 102 then some (c.toNat - 87)
  else none

/-- Python int(s, 16) for plain hexadecimal strings; None models ValueError. -/
def parseHexOpt (l : PyStr) : Option Nat :=
  match l with
  | [] => none
  | _ =>
    l.foldl (fun acc c =>
      match acc, hexDigitVal c with
      | some a, some d => some (a * 16 + d)
      | _, _ => none) (some 0)

/-- Python str.lower() restricted to ASCII, as used on memory bank names. -/
def lowerStr (l : PyStr) : PyStr := l.map Char.toLower

/-- Values storable in a tag record: strings, integers and booleans. -/
inductive TagVal where
  | s (v : PyStr)
  | n (v : Int)
  | b (v : Bool)
  deriving DecidableEq

/-- A tag record is a Python dict from field names to values; we model it as
an insertion-ordered association list (updates keep the original position,
as Python dicts do). -/
abbrev Tag := List (PyStr × TagVal)

/-- Dict update or insert: replace in place when the key exists, else append
(Python dicts keep the original insertion position on update). -/
def dictSet {α : Type} (t : List (PyStr × α)) (k : PyStr) (v : α) :
    List (PyStr × α) :=
  match t with
  | [] => [(k, v)]
  | (k0, v0) :: rest =>
    if k0 = k then (k, v) :: rest else (k0, v0) :: dictSet rest k v

/-- Dict deletion (del t[k] when present). -/
def dictDel {α : Type} (t : List (PyStr × α)) (k : PyStr) : List (PyStr × α) :=
  match t with
  | [] => []
  | (k0, v0) :: rest => if k0 = k then rest else (k0, v0) :: dictDel rest k

/-- Dict lookup, t.get(k). -/
def dictGet {α : Type} (t : List (PyStr × α)) (k : PyStr) : Option α :=
  match t with
  | [] => none
  | (k0, v0) :: rest => if k0 = k then some v0 else dictGet rest k

/-- Tag.set_value: store the value, deleting the key when the value is None. -/
def set_value (t : Tag) (k : PyStr) (v : Option TagVal) : Tag :=
  match v with
  | some x => dictSet t k x
  | none => dictDel t k

/-- t.get(k, default) for a string-valued field. -/
def getStr (t : Tag) (k : PyStr) (dflt : PyStr) : PyStr :=
  match dictGet t k with
  | some (.s v) => v
  | _ => dflt

/-- t.get(k, default) for an integer-valued field. -/
def getInt (t : Tag) (k : PyStr) (dflt : Int) : Int :=
  match dictGet t k with
  | some (.n v) => v
  | _ => dflt

/-- Tag.get_tid. -/
def get_tid (t : Tag) : PyStr := getStr t (pstr "tid") []

/-- Tag.set_tid. -/
def set_tid (t : Tag) (v : PyStr) : Tag := set_value t (pstr "tid") (some (.s v))

/-- UhfTag.get_epc. -/
def get_epc (t : Tag) : PyStr := getStr t (pstr "epc") []

/-- UhfTag.set_epc. -/
def set_epc (t : Tag) (v : PyStr) : Tag := set_value t (pstr "epc") (some (.s v))

/-- UhfTag.set_rssi. -/
def set_rssi (t : Tag) (v : Int) : Tag := set_value t (pstr "rssi") (some (.n v))

/-- Tag.set_timestamp. -/
def set_timestamp (t : Tag) (v : Int) : Tag :=
  set_value t (pstr "timestamp") (some (.n v))

/-- Tag.set_seen_count. -/
def set_seen_count (t : Tag) (v : Int) : Tag :=
  set_value t (pstr "seen_count") (some (.n v))

/-- Tag.set_antenna. -/
def set_antenna (t : Tag) (v : Int) : Tag :=
  set_value t (pstr "antenna") (some (.n v))

/-- Tag.set_data. -/
def set_data (t : Tag) (v : PyStr) : Tag := set_value t (pstr "data") (some (.s v))

/-- Tag.get_data. -/
def get_data (t : Tag) : PyStr := getStr t (pstr "data") []

/-- Tag.has_error. -/
def has_error (t : Tag) : Bool :=
  match dictGet t (pstr "has_error") with
  | some (.b v) => v
  | _ => false

/-- Tag.get_error_message. -/
def get_error_message (t : Tag) : PyStr := getStr t (pstr "error_message") []

/-- Tag.set_error_message: stores the message and couples has_error to the
truthiness of the message. -/
def set_error_message (t : Tag) (msg : PyStr) : Tag :=
  set_value (set_value t (pstr "error_message") (some (.s msg)))
    (pstr "has_error") (some (.b (msg ≠ [])))

/-- Tag.get_id of the generic variant: returns self.get_tid(), whose default
for an absent tid field is the empty string. -/
def tag_get_id (t : Tag) : PyStr := get_tid t

/-- UhfTag.get_id: the epc when non-empty, else the literal unknown. -/
def uhf_get_id (t : Tag) : PyStr :=
  let identifier := get_epc t
  if identifier ≠ [] then identifier else pstr "unknown"

/-- Outcome of RfidReaderGen2._send_command: either the accumulated response
lines, or a raised RfidReaderException carrying a message. -/
inductive SendResult where
  | ok (lines : List PyStr)
  | err (msg : PyStr)
  deriving DecidableEq

/-- Error detail extraction on an ERROR line: the slice between the last
angle brackets of the body; the whole body when rindex raises ValueError. -/
def errDetail (body : PyStr) : PyStr :=
  match rindexChar body '<', rindexChar body '>' with
  | some i, some j => pySlice body (i + 1) j
  | _, _ => body

/-- The read loop of RfidReaderGen2._send_command over the raw lines the
transport yields before the deadline expires (reaching the end of the list
models the deadline passing on a read that returned no data). -/
def recv_loop (send_cmd : PyStr) (started : Bool) (response : PyStr) :
    List PyStr → SendResult
  | [] =>
    if response = [] then .err (pstr "no reader response for command " ++ send_cmd)
    else .err (pstr "wrong response for command " ++ send_cmd ++ pstr " - " ++ response)
  | raw :: rest =>
    let resp := dropLast2 raw
    if resp = [] then recv_loop send_cmd started response rest
    else if started then
      if resp = pstr "OK" then
        .ok (if response ≠ [] then splitOnChar '\r' response else [[]])
      else if resp = pstr "ERROR" then .err (errDetail response)
      else recv_loop send_cmd started resp rest
    else if containsSub resp send_cmd then recv_loop send_cmd true response rest
    else recv_loop send_cmd started response rest

/-- RfidReaderGen2._send_command given the framed command, whether a command
echo is expected, and the raw lines read from the transport. -/
def send_command (send_cmd : PyStr) (command_response : Bool)
    (raws : List PyStr) : SendResult :=
  recv_loop send_cmd (!command_response) [] raws

/-- A parameter passed to _prepare_command: a string or an integer (str() is
applied to present parameters when joining). -/
inductive Param where
  | ps (v : PyStr)
  | pint (v : Nat)
  deriving DecidableEq

/-- Python str(x) on a parameter value. -/
def paramStr : Param → PyStr
  | .ps v => v
  | .pint v => natToStr v

/-- RfidReaderGen2._prepare_command: the bare verb for an empty parameter
tuple, else verb, equals sign and the comma-join of present parameters. -/
def prepare_command (command : PyStr) (parameters : List (Option Param)) : PyStr :=
  if parameters = [] then command
  else command ++ '=' :: joinComma ((parameters.filterMap (fun p => p.map paramStr)))

/-- The while loop of UhfReaderGen2.set_tag_size: starting from exponent q,
increment q while the count exceeds 2 to the q. -/
def qloop (n q : Nat) : Nat :=
  if n > 2 ^ q then qloop n (q + 1) else q
termination_by n - 2 ^ q
decreasing_by
  have h2 : 2 ^ q < 2 ^ (q + 1) := Nat.pow_lt_pow_succ (by norm_num)
  omega

/-- UhfReaderGen2.set_tag_size: the framed AT+Q command string. The min
exponent is always present (0 when min_tags is falsy); the max exponent is
absent exactly when max_tags is falsy. -/
def set_tag_size (tags_size min_tags max_tags : Nat) : PyStr :=
  let q_start := qloop tags_size 0
  let q_min := if min_tags ≠ 0 then qloop min_tags 0 else 0
  let q_max : Option Nat := if max_tags ≠ 0 then some (qloop max_tags 0) else none
  prepare_command (pstr "AT+Q")
    [some (.pint q_start), some (.pint q_min), q_max.map .pint]

/-- Statically declared expected reader metadata. The minimum firmware is a
two-decimal float literal in the source; it is modelled exactly by its value
in hundredths (1.3 becomes 130). -/
structure ExpectedReader where
  firmware_name : PyStr
  hardware_name : PyStr
  min_firmware_centi : Nat
  deriving DecidableEq

/-- The metadata the ExpectedReaderInfo decorator attaches to QRG2. -/
def qrg2Expected : ExpectedReader := ⟨pstr "QRG2", pstr "QRG2", 130⟩

/-- Outcome of get_reader_info: the parsed info, a raised
RfidReaderException, or an uncaught ValueError (crash). -/
inductive InfoResult where
  | info (firmware firmware_version hardware hardware_version serial : PyStr)
  | exc (msg : PyStr)
  | crash
  deriving DecidableEq

/-- Join with a comma and a space, as Python repr of a list does. -/
def joinCommaSpace : List PyStr → PyStr
  | [] => []
  | [x] => x
  | x :: xs => x ++ ',' :: ' ' :: joinCommaSpace xs

/-- Python repr of a plain string: wrapped in single quotes. -/
def pyReprStr (s : PyStr) : PyStr := Char.ofNat 39 :: s ++ [Char.ofNat 39]

/-- Python str() of a list of strings, as an f-string renders it. -/
def pyReprList (l : List PyStr) : PyStr :=
  '[' :: joinCommaSpace (l.map pyReprStr) ++ [']']

/-- The derived firmware version of get_reader_info: float built from the
first two and next two characters of the raw version string, in hundredths.
None models the ValueError float() raises on non-digit input; a slice
shorter than two characters simply yields fewer digits, as in Python. -/
def parseVersionCenti (fv : PyStr) : Option Nat :=
  let a := fv.take 2
  let b := (fv.drop 2).take 2
  if a.all isDigitCh && b.all isDigitCh && (a ≠ [] || b ≠ []) then
    some (digitsVal a * 100 + digitsVal b * 10 ^ (2 - b.length))
  else none

/-- Python str() of the float whose value is c hundredths: integer part, a
dot, and the fractional digits with the trailing zero rule of repr
(1.0 not 1., 2.05, 2.5, 14.0). -/
def pyFloatCentiStr (c : Nat) : PyStr :=
  let f := c % 100
  natToStr (c / 100) ++ '.' ::
    (if f = 0 then pstr "0"
     else if f % 10 = 0 then natToStr (f / 10)
     else if f < 10 then '0' :: natToStr f
     else natToStr f)

/-- RfidReaderGen2.get_reader_info on the three response lines of ATI, for a
reader class carrying the given expected metadata. IndexError while parsing
is caught and reported as the wrong-reader error; the firmware version
comparison mirrors the source exactly: the too-low error is raised when the
derived version is strictly greater than the declared minimum. -/
def get_reader_info (expected : ExpectedReader) (response : List PyStr) :
    InfoResult :=
  match pyGet response 0, pyGet response 1, pyGet response 2 with
  | some l0, some l1, some l2 =>
    let firmware := splitOnChar ' ' l0
    let hardware := splitOnChar ' ' l1
    let serial := splitOnChar ' ' l2
    match pyGet firmware 1, pyGet firmware 2, pyGet hardware 1,
        pyGet hardware 2, pyGet serial 1 with
    | some fw, some fwv, some hw, some hwv, some sn =>
      if hw ≠ expected.hardware_name then
        .exc (pstr "Wrong reader type! " ++ expected.hardware_name ++
          pstr " expected, " ++ hw ++ pstr " found")
      else if fw ≠ expected.firmware_name then
        .exc (pstr "Wrong reader firmware! " ++ expected.firmware_name ++
          pstr " expected" ++ pstr ", " ++ fw ++ pstr " found")
      else
        match parseVersionCenti fwv with
        | none => .crash
        | some v =>
          if v > expected.min_firmware_centi then
            .exc (pstr "Reader firmware too low, please update! " ++
              pstr "Minimum " ++ pyFloatCentiStr expected.min_firmware_centi ++
              pstr " expected, " ++ pyFloatCentiStr v ++ pstr " found")
          else .info fw fwv hw hwv sn
    | _, _, _, _, _ =>
      .exc (pstr "Wrong reader - Not expected info response - " ++
        pyReprList response)
  | _, _, _ =>
    .exc (pstr "Wrong reader - Not expected info response - " ++
      pyReprList response)

/-- Outcome of a parsing operation: a value, a raised RfidReaderException,
or an uncaught Python exception (crash). -/
inductive PyResult (α : Type) where
  | ok (v : α)
  | exc (msg : PyStr)
  | crash
  deriving DecidableEq

/-- Python slice s[-2:-1]: the one-character slice before the last
character, empty when the string is shorter than two characters. -/
def sliceNeg2Neg1 (l : PyStr) : PyStr :=
  match l.dropLast.getLast? with
  | some c => [c]
  | none => []

/-- Construction of one inventory tag from the comma-split fields, per the
configured flags; None models an uncaught IndexError or ValueError. -/
def buildInvTag (info : List PyStr) (ts : Int)
    (with_tid with_rssi is_report : Bool) : Option Tag :=
  let t1 := set_timestamp (set_epc [] info.headI) ts
  let t2? : Option Tag :=
    if with_tid then (pyGet info 1).map (set_tid t1) else some t1
  match t2? with
  | none => none
  | some t2 =>
    let t3? : Option Tag :=
      if with_rssi then
        match pyGet info (if with_tid then 2 else 1) with
        | none => none
        | some f => (parseIntOpt f).map (set_rssi t2)
      else some t2
    match t3? with
    | none => none
    | some t3 =>
      if is_report then
        match info.getLast? with
        | none => none
        | some f => (parseIntOpt f).map (set_seen_count t3)
      else some t3

/-- The per-line loop of UhfReaderGen2._parse_inventory, carrying the
accumulated inventory, current antenna and pending error text. -/
def inv_loop (split_index : Nat) (with_tid with_rssi ignore_error is_report : Bool)
    (ts : Int) : List PyStr → List Tag → Int → PyStr →
    PyResult (List Tag × Int × PyStr)
  | [], inventory, antenna, error => .ok (inventory, antenna, error)
  | response :: rest, inventory, antenna, error =>
    match pyGet response 0 with
    | none => .crash
    | some c0 =>
      if c0 ≠ '+' then
        inv_loop split_index with_tid with_rssi ignore_error is_report ts
          rest inventory antenna error
      else
        match pyGet response split_index with
        | none => .crash
        | some cs =>
          if cs = '<' then
            match pyGet response (split_index + 1) with
            | none => .crash
            | some c1 =>
              if c1 = 'N' then
                inv_loop split_index with_tid with_rssi ignore_error is_report ts
                  rest inventory antenna error
              else if c1 = 'R' then
                match parseIntOpt (sliceNeg2Neg1 response) with
                | some a =>
                  inv_loop split_index with_tid with_rssi ignore_error is_report ts
                    rest inventory a error
                | none =>
                  inv_loop split_index with_tid with_rssi ignore_error is_report ts
                    rest inventory antenna error
              else if ignore_error then
                inv_loop split_index with_tid with_rssi ignore_error is_report ts
                  rest inventory antenna error
              else
                inv_loop split_index with_tid with_rssi ignore_error is_report ts
                  rest inventory antenna ((response.drop (split_index + 1)).dropLast)
          else
            match buildInvTag (splitOnChar ',' (response.drop split_index)) ts
                with_tid with_rssi is_report with
            | none => .crash
            | some tag =>
              inv_loop split_index with_tid with_rssi ignore_error is_report ts
                rest (inventory ++ [tag]) antenna error

/-- Python str() of an integer. -/
def intToStr (i : Int) : PyStr :=
  if i < 0 then '-' :: natToStr i.natAbs else natToStr i.natAbs

/-- UhfReaderGen2._parse_inventory: decode the response lines into tags,
raising the pending error (with per-antenna attribution when an antenna is
known) after all lines are processed, and stamping the antenna on every tag
otherwise. The error bookkeeping written into the configuration mirror just
before the raise does not affect the returned value and is not modelled. -/
def parse_inventory (responses : List PyStr) (ts : Int) (split_index : Nat)
    (with_tid with_rssi ignore_error is_report : Bool) : PyResult (List Tag) :=
  match inv_loop split_index with_tid with_rssi ignore_error is_report ts
      responses [] 0 [] with
  | .crash => .crash
  | .exc m => .exc m
  | .ok (inventory, antenna, error) =>
    if error ≠ [] then
      .exc (if antenna ≠ 0 then error ++ pstr " - Antenna " ++ intToStr antenna
        else error)
    else if antenna ≠ 0 then .ok (inventory.map (fun t => set_antenna t antenna))
    else .ok inventory

/-- UhfReaderGen2._parse_tag_responses: one tag per line of the form
prefix, EPC, comma, status; None models the uncaught IndexError raised when
a non-event line has no second field. -/
def parse_tag_responses (responses : List PyStr) (prefix_length : Nat)
    (ts : Int) : Option (List Tag) :=
  match responses with
  | [] => some []
  | response :: rest =>
    match pyGet response prefix_length with
    | none => none
    | some c =>
      if c = '<' then
        match pyGet response (prefix_length + 1) with
        | none => none
        | some _ => parse_tag_responses rest prefix_length ts
      else
        let info := splitOnChar ',' (response.drop prefix_length)
        let t1 := set_timestamp (set_epc [] info.headI) ts
        match pyGet info 1 with
        | none => none
        | some st =>
          let t2 := if st ≠ pstr "OK" then set_error_message t1 st else t1
          (parse_tag_responses rest prefix_length ts).map (t2 :: ·)

/-- The response-parsing part of UhfReaderGen2.read_tag_data: the memory
bank name selects the key under which a successful read stores its payload;
IndexError on the second and third fields is caught and skipped. -/
def read_tag_data_resp (responses : List PyStr) (memory : PyStr) (ts : Int) :
    Option (List Tag) :=
  match responses with
  | [] => some []
  | response :: rest =>
    match pyGet response 7 with
    | none => none
    | some c =>
      if c = '<' then
        match pyGet response 8 with
        | none => none
        | some _ => read_tag_data_resp rest memory ts
      else
        let info := splitOnChar ',' (response.drop 7)
        let t1 := set_timestamp (set_epc [] info.headI) ts
        let t2 :=
          match pyGet info 1 with
          | none => t1
          | some st =>
            if st = pstr "OK" then
              match pyGet info 2 with
              | none => t1
              | some d => set_data (set_value t1 (lowerStr memory) (some (.s d))) d
            else set_error_message t1 st
        (read_tag_data_resp rest memory ts).map (t2 :: ·)

/-- Outcome of the PC-consistency loop of write_tag_epc. -/
inductive PcScan where
  | ok (pc : Nat)
  | ambiguous
  | crash
  deriving DecidableEq

/-- The PC-consistency loop of write_tag_epc: a zero accumulator counts as
unset, so each tag whose masked value arrives while the accumulator is still
zero replaces it without comparison. -/
def pc_scan : List Tag → Nat → PcScan
  | [], pc => .ok pc
  | t :: ts_, pc =>
    match parseHexOpt (get_data t) with
    | none => .crash
    | some d0 =>
      let data := d0 &&& 0x07FF
      if pc = 0 then pc_scan ts_ data
      else if data ≠ pc then .ambiguous
      else pc_scan ts_ pc

/-- The masked lower-11-bit PC base value of one tag record, when its data
field parses as hexadecimal. -/
def maskedPc (t : Tag) : Option Nat := (parseHexOpt (get_data t)).map (· &&& 0x07FF)

/-- A dict from pre-rewrite EPC to tag record, as write_tag_epc keeps it. -/
abbrev TagDict := List (PyStr × Tag)

/-- The EPC-write loop of write_tag_epc: every responding tag is keyed by
its pre-rewrite EPC; a successful one gets the new EPC and an old_epc
annotation. -/
def epc_write_phase (new_epc : PyStr) : List Tag → TagDict → TagDict
  | [], tags => tags
  | tag :: rest, tags =>
    let key := get_epc tag
    let tag2 :=
      if !has_error tag then
        let old_epc := get_epc tag
        set_value (set_epc tag new_epc) (pstr "old_epc") (some (.s old_epc))
      else tag
    epc_write_phase new_epc rest (dictSet tags key tag2)

/-- The PC-write reconciliation loop of write_tag_epc. On a failed PC write
for a tag whose EPC write also failed, the chained message re-uses that
same record's existing (EPC-write) error message. -/
def pc_write_phase : List Tag → TagDict → TagDict
  | [], tags => tags
  | tag_pc :: rest, tags =>
    let key := get_epc tag_pc
    match dictGet tags key with
    | some tag_epc =>
      let tags2 :=
        if has_error tag_pc then
          if !has_error tag_epc then
            dictSet tags key
              (set_error_message tag_epc (pstr "epc written, epc length not updated!"))
          else
            dictSet tags key
              (set_error_message tag_epc
                (pstr "epc not written - " ++ get_error_message tag_epc))
        else tags
      pc_write_phase rest tags2
    | none =>
      if !has_error tag_pc then
        pc_write_phase rest
          (dictSet tags key
            (set_error_message tag_pc (pstr "epc not written, but epc length updated!")))
      else pc_write_phase rest tags

/-- Uppercase hexadecimal digit. -/
def hexDigitChar (n : Nat) : Char :=
  if n < 10 then Nat.digitChar n else Char.ofNat (55 + n)

/-- Python format {:04X} for values below 65536. -/
def hex4 (n : Nat) : PyStr :=
  [hexDigitChar (n / 4096 % 16), hexDigitChar (n / 256 % 16),
   hexDigitChar (n / 16 % 16), hexDigitChar (n % 16)]

/-- One run of UhfReaderGen2.write_tag_epc, as a function of the device
response lines of its three commands (PC read, EPC write, PC write). -/
structure EpcRun where
  result : PyResult (List Tag)
  epcWriteSent : Bool
  pcWriteSent : Bool
  pcWriteData : Option PyStr

/-- UhfReaderGen2.write_tag_epc (mask save and restore around the window,
which does not influence the returned records, is at the transport side of
the modelled inputs): validate the new EPC length, read and check the PC
words, write the new EPC, write the recomputed PC word, and reconcile the
two write responses keyed by pre-rewrite EPC. -/
def write_tag_epc_run (new_epc : PyStr) (ts : Int)
    (pcReadLines epcWriteLines pcWriteLines : List PyStr) : EpcRun :=
  if new_epc.length % 4 ≠ 0 then
    ⟨.exc (pstr " The new epc length must be a multiple of 4"), false, false, none⟩
  else
    let epc_words := new_epc.length / 4
    let epc_length_byte :=
      ((epc_words / 2) <<< 12) ||| (if epc_words % 2 = 1 then 0x0800 else 0)
    match read_tag_data_resp pcReadLines (pstr "PC") ts with
    | none => ⟨.crash, false, false, none⟩
    | some inventory_pc =>
      if inventory_pc = [] then ⟨.ok [], false, false, none⟩
      else
        match pc_scan inventory_pc 0 with
        | .crash => ⟨.crash, false, false, none⟩
        | .ambiguous =>
          ⟨.exc (pstr "Different tags are in the field, which would result in data loss when writing. Please edit individually."),
            false, false, none⟩
        | .ok pc_byte0 =>
          match parse_tag_responses epcWriteLines 6 ts with
          | none => ⟨.crash, true, false, none⟩
          | some inventory_epc =>
            let tags := epc_write_phase new_epc inventory_epc []
            let pc_byte := pc_byte0 ||| epc_length_byte
            match parse_tag_responses pcWriteLines 6 ts with
            | none => ⟨.crash, true, true, some (hex4 pc_byte)⟩
            | some inventory_pc2 =>
              let tags2 := pc_write_phase inventory_pc2 tags
              ⟨.ok (tags2.map Prod.snd), true, true, some (hex4 pc_byte)⟩

lemma rindexChar_eq_none_iff (l : PyStr) (c : Char) :
    rindexChar l c = none ↔ c ∉ l := by
  induction l with
  | nil => simp [rindexChar]
  | cons a t ih =>
    simp only [rindexChar, List.mem_cons]
    cases h : rindexChar t c with
    | some i =>
      have hc : c ∈ t := by
        by_contra hn
        exact absurd (ih.mpr hn) (by simp [h])
      simp [hc]
    | none =>
      have hc : c ∉ t := ih.mp h
      by_cases ha : a = c
      · simp [ha]
      · simp [ha, hc, Ne.symm ha]

lemma filterMap_map_paramStr (ps : List (Option Param)) :
    ps.filterMap (fun p => p.map paramStr) = (ps.filterMap id).map paramStr := by
  induction ps with
  | nil => rfl
  | cons h t ih => cases h <;> simp [List.filterMap_cons, ih]

/-- C6: the framer yields the bare verb for an empty parameter list, and
otherwise the verb, an equals sign and the comma-join of the present
parameters in their original relative order; in particular
frame(AT+Q, 4, None, 15) is AT+Q=4,15. -/
theorem c6_framer_omits_absent :
    (∀ cmd : PyStr, prepare_command cmd [] = cmd) ∧
    (∀ (cmd : PyStr) (ps : List (Option Param)), ps ≠ [] →
      prepare_command cmd ps =
        cmd ++ '=' :: joinComma ((ps.filterMap id).map paramStr)) ∧
    prepare_command (pstr "AT+Q") [some (.pint 4), none, some (.pint 15)] =
      pstr "AT+Q=4,15" := by
  refine ⟨fun cmd => rfl, fun cmd ps h => ?_, by decide⟩
  rw [prepare_command, if_neg h, filterMap_map_paramStr]

theorem c6_framer_omits_absent_witness :
    prepare_command (pstr "AT+INVS") [some (.pint 1), some (.pint 0)] =
      pstr "AT+INVS" ++ '=' ::
        joinComma (([some (Param.pint 1), some (Param.pint 0)].filterMap id).map paramStr) :=
  c6_framer_omits_absent.2.1 (pstr "AT+INVS") _ (by decide)

/-- C10: a non-empty parameter list in which every parameter is None frames
as the verb followed by a trailing equals sign with an empty join, not as
the bare verb. -/
theorem c10_all_none_trailing_eq :
    ∀ (cmd : PyStr) (ps : List (Option Param)), ps ≠ [] → (∀ p ∈ ps, p = none) →
      prepare_command cmd ps = cmd ++ pstr "=" := by
  intro cmd ps h hall
  have hnil : ∀ ps2 : List (Option Param), (∀ p ∈ ps2, p = none) →
      ps2.filterMap (fun p => p.map paramStr) = [] := by
    intro ps2
    induction ps2 with
    | nil => intro _; rfl
    | cons a t ih =>
      intro hall2
      have ha : a = none := hall2 a (List.mem_cons_self a t)
      rw [List.filterMap_cons, ha]
      exact ih (fun p hp => hall2 p (List.mem_cons_of_mem a hp))
  rw [prepare_command, if_neg h, hnil ps hall]
  rfl

theorem c10_all_none_trailing_eq_witness :
    prepare_command (pstr "CMD") [none, none] = pstr "CMD" ++ pstr "=" :=
  c10_all_none_trailing_eq (pstr "CMD") [none, none] (by decide) (by decide)

/-- C9 counterexample: the generic variant returns the empty string, not
the literal unknown, for a record with no tid field. -/
theorem c9_counterexample_generic_empty :
    tag_get_id ([] : Tag) = [] ∧ tag_get_id ([] : Tag) ≠ pstr "unknown" := by
  decide

/-- C9 amended: the UHF variant returns the epc field with the literal
unknown as fallback for an absent or empty epc, while the generic variant
returns the tid field as is, so an absent or empty tid yields the empty
string rather than unknown. -/
theorem c9_get_id_amended :
    (∀ t : Tag, get_epc t ≠ [] → uhf_get_id t = get_epc t) ∧
    (∀ t : Tag, get_epc t = [] → uhf_get_id t = pstr "unknown") ∧
    (∀ t : Tag, tag_get_id t = get_tid t) ∧
    (∀ t : Tag, get_tid t = [] → tag_get_id t = []) := by
  refine ⟨fun t h => ?_, fun t h => ?_, fun t => rfl, fun t h => h⟩
  · rw [uhf_get_id, if_pos h]
  · rw [uhf_get_id, if_neg (by simp [h])]

theorem c9_get_id_amended_witness :
    uhf_get_id ([] : Tag) = pstr "unknown" :=
  c9_get_id_amended.2.1 ([] : Tag) rfl

/-- C1: in the accumulating state, a line equal to ERROR raises the
protocol error whose message is the error detail of the accumulated body:
the slice strictly between the last opening and last closing angle bracket
when both occur, and the entire body when either is missing; for body
line <ACCESS ERROR> followed by ERROR the detail is exactly ACCESS ERROR. -/
theorem c1_error_line_detail :
    (∀ (cmd acc r : PyStr) (rest : List PyStr),
        dropLast2 r = pstr "ERROR" →
        recv_loop cmd true acc (r :: rest) = .err (errDetail acc)) ∧
    (∀ acc : PyStr, ('<' ∉ acc ∨ '>' ∉ acc) → errDetail acc = acc) ∧
    (∀ (acc : PyStr) (i j : Nat), rindexChar acc '<' = some i →
        rindexChar acc '>' = some j → errDetail acc = pySlice acc (i + 1) j) ∧
    recv_loop (pstr "AT+READ") true []
        [pstr "<ACCESS ERROR>" ++ pstr "\r\n", pstr "ERROR" ++ pstr "\r\n"] =
      .err (pstr "ACCESS ERROR") := by
  refine ⟨fun cmd acc r rest h => ?_, fun acc h => ?_, fun acc i j hi hj => ?_, by decide⟩
  · simp only [recv_loop]
    rw [h]
    norm_num
    rw [if_neg (by decide : ¬((pstr "ERROR" : PyStr) = [])),
      if_neg (by decide : ¬((pstr "ERROR" : PyStr) = pstr "OK"))]
  · rcases h with h | h
    · have hn : rindexChar acc '<' = none := (rindexChar_eq_none_iff acc '<').mpr h
      cases hg : rindexChar acc '>' <;> simp [errDetail, hn, hg]
    · have hn : rindexChar acc '>' = none := (rindexChar_eq_none_iff acc '>').mpr h
      cases hg : rindexChar acc '<' <;> simp [errDetail, hn, hg]
  · simp [errDetail, hi, hj]

theorem c1_error_line_detail_witness :
    recv_loop (pstr "AT+WRT") true (pstr "<MEMORY OVERRUN>")
        [pstr "ERROR" ++ pstr "\r\n"] =
      .err (errDetail (pstr "<MEMORY OVERRUN>")) :=
  c1_error_line_detail.1 (pstr "AT+WRT") (pstr "<MEMORY OVERRUN>")
    (pstr "ERROR" ++ pstr "\r\n") [] (by decide)

/-- C2: when the line list is exhausted without a terminal marker (the
deadline passing on an empty read), the collector raises: with an empty
accumulated body the message reports no reader response for the command,
otherwise it reports a wrong response and appends the accumulated body;
and any non-empty, non-terminal line in the accumulating state replaces the
body, so such data is what a later timeout reports. -/
theorem c2_timeout_messages :
    (∀ (cmd : PyStr) (started : Bool), recv_loop cmd started [] [] =
        .err (pstr "no reader response for command " ++ cmd)) ∧
    (∀ (cmd acc : PyStr) (started : Bool), acc ≠ [] →
        recv_loop cmd started acc [] =
          .err (pstr "wrong response for command " ++ cmd ++ pstr " - " ++ acc)) ∧
    (∀ (cmd acc r : PyStr) (rest : List PyStr),
        dropLast2 r ≠ [] → dropLast2 r ≠ pstr "OK" → dropLast2 r ≠ pstr "ERROR" →
        recv_loop cmd true acc (r :: rest) = recv_loop cmd true (dropLast2 r) rest) := by
  refine ⟨fun cmd started => by simp [recv_loop],
    fun cmd acc started h => by simp [recv_loop, h],
    fun cmd acc r rest h1 h2 h3 => ?_⟩
  simp only [recv_loop]
  rw [if_neg h1]
  norm_num
  rw [if_neg h2, if_neg h3]
  try rfl

theorem c2_timeout_messages_witness :
    recv_loop (pstr "AT+INV") false (pstr "+INV: X") [] =
      .err (pstr "wrong response for command " ++ pstr "AT+INV" ++ pstr " - " ++
        pstr "+INV: X") :=
  c2_timeout_messages.2.1 (pstr "AT+INV") (pstr "+INV: X") false (by decide)

lemma qloop_ge (n q : Nat) : n ≤ 2 ^ qloop n q := by
  refine qloop.induct n (fun p => n ≤ 2 ^ qloop n p) ?_ ?_ q
  · intro x h ih
    rw [qloop, if_pos h]
    exact ih
  · intro x h
    rw [qloop, if_neg h]
    omega

lemma qloop_le (n q : Nat) : ∀ k, q ≤ k → n ≤ 2 ^ k → qloop n q ≤ k := by
  refine qloop.induct n (fun p => ∀ k, p ≤ k → n ≤ 2 ^ k → qloop n p ≤ k) ?_ ?_ q
  · intro x h ih k hq hk
    rw [qloop, if_pos h]
    refine ih k ?_ hk
    have hlt : (2 : Nat) ^ x < 2 ^ k := lt_of_lt_of_le h hk
    have := (Nat.pow_lt_pow_iff_right (by norm_num : 1 < 2)).mp hlt
    omega
  · intro x h k hq _
    rw [qloop, if_neg h]
    exact hq

lemma qloop0_eq (n k : Nat) (h1 : n ≤ 2 ^ k) (h2 : ∀ j, j < k → 2 ^ j < n) :
    qloop n 0 = k := by
  have ha := qloop_ge n 0
  have hb := qloop_le n 0 k (Nat.zero_le k) h1
  rcases Nat.lt_or_ge (qloop n 0) k with h | h
  · have := h2 _ h
    omega
  · omega

lemma qloop_zero : qloop 0 0 = 0 := by
  rw [qloop, if_neg]
  omega

/-- C7: the exponent loop computes the smallest q with 2 to the q at least
the count (witnessed by the characteristic pair of bounds and the sample
values 1, 2, 3, 256, 257), and set_tag_size frames AT+Q with the target
exponent followed by the min and max exponents, where a max count of zero
makes the max parameter absent and therefore not sent. -/
theorem c7_tag_size_exponents :
    (∀ n : Nat, n ≤ 2 ^ qloop n 0) ∧
    (∀ n k : Nat, n ≤ 2 ^ k → qloop n 0 ≤ k) ∧
    (qloop 1 0 = 0 ∧ qloop 2 0 = 1 ∧ qloop 3 0 = 2 ∧
      qloop 256 0 = 8 ∧ qloop 257 0 = 9) ∧
    (∀ ts mn mx : Nat, mx ≠ 0 →
      set_tag_size ts mn mx =
        pstr "AT+Q" ++ '=' :: (natToStr (qloop ts 0) ++
          ',' :: natToStr (qloop mn 0) ++ ',' :: natToStr (qloop mx 0))) ∧
    (∀ ts mn : Nat,
      set_tag_size ts mn 0 =
        pstr "AT+Q" ++ '=' :: (natToStr (qloop ts 0) ++
          ',' :: natToStr (qloop mn 0))) := by
  have hqmin : ∀ mn : Nat, (if mn ≠ 0 then qloop mn 0 else 0) = qloop mn 0 := by
    intro mn
    by_cases h : mn = 0
    · subst h
      rw [if_neg (by omega), qloop_zero]
    · rw [if_pos h]
  refine ⟨fun n => qloop_ge n 0, fun n k hk => qloop_le n 0 k (Nat.zero_le k) hk,
    ⟨?_, ?_, ?_, ?_, ?_⟩, fun ts mn mx hmx => ?_, fun ts mn => ?_⟩
  · exact qloop0_eq 1 0 (by norm_num) (by omega)
  · exact qloop0_eq 2 1 (by norm_num) (by intro j hj; interval_cases j; norm_num)
  · exact qloop0_eq 3 2 (by norm_num) (by intro j hj; interval_cases j <;> norm_num)
  · exact qloop0_eq 256 8 (by norm_num) (by intro j hj; interval_cases j <;> norm_num)
  · exact qloop0_eq 257 9 (by norm_num) (by intro j hj; interval_cases j <;> norm_num)
  · simp only [set_tag_size, hqmin, if_pos hmx, Option.map_some]
    simp [prepare_command, joinComma, List.filterMap, paramStr]
  · simp only [set_tag_size, hqmin, if_neg (by omega : ¬ (0 : Nat) ≠ 0), Option.map_none]
    simp [prepare_command, joinComma, List.filterMap, paramStr]

theorem c7_tag_size_exponents_witness :
    set_tag_size 4 2 15 =
      pstr "AT+Q" ++ '=' :: (natToStr (qloop 4 0) ++
        ',' :: natToStr (qloop 2 0) ++ ',' :: natToStr (qloop 15 0)) :=
  c7_tag_size_exponents.2.2.2.1 4 2 15 (by decide)

/-- C3 evidence: with the QRG2 metadata (minimum firmware 1.3), a response
whose derived firmware version 1.00 lies strictly below the minimum is
accepted and the parsed info returned, while a response with derived
version 14.00, far above the minimum, raises the too-low error: the source
raises on greater-than instead of less-than, contradicting its own message
text. -/
theorem c3_firmware_low_check_inverted :
    (get_reader_info qrg2Expected
        [pstr "+SW: QRG2 0100", pstr "+HW: QRG2 0100",
          pstr "+SERIAL: 2020090817420000"] =
      .info (pstr "QRG2") (pstr "0100") (pstr "QRG2") (pstr "0100")
        (pstr "2020090817420000")) ∧
    parseVersionCenti (pstr "0100") = some 100 ∧
    100 < qrg2Expected.min_firmware_centi ∧
    (get_reader_info qrg2Expected
        [pstr "+SW: QRG2 1400", pstr "+HW: QRG2 0100",
          pstr "+SERIAL: 2020090817420000"] =
      .exc (pstr "Reader firmware too low, please update! Minimum 1.3 expected, 14.0 found")) ∧
    parseVersionCenti (pstr "1400") = some 1400 ∧
    qrg2Expected.min_firmware_centi < 1400 := by
  decide

lemma splitOnChar_ne_nil (sep : Char) (l : PyStr) : splitOnChar sep l ≠ [] := by
  cases l with
  | nil => simp [splitOnChar]
  | cons c rest =>
    simp only [splitOnChar]
    by_cases h : c = sep
    · simp [h]
    · cases hs : splitOnChar sep rest <;> simp [h, hs]

lemma splitOnChar_no_sep (sep : Char) (a : PyStr) (h : sep ∉ a) :
    splitOnChar sep a = [a] := by
  induction a with
  | nil => rfl
  | cons c rest ih =>
    have hc : c ≠ sep := fun e => h (e ▸ List.mem_cons_self c rest)
    have hr : sep ∉ rest := fun hm => h (List.mem_cons_of_mem c hm)
    simp only [splitOnChar, if_neg hc, ih hr]

lemma splitOnChar_append (sep : Char) (a b : PyStr) (h : sep ∉ a) :
    splitOnChar sep (a ++ sep :: b) = a :: splitOnChar sep b := by
  induction a with
  | nil => simp [splitOnChar]
  | cons c rest ih =>
    have hc : c ≠ sep := fun e => h (e ▸ List.mem_cons_self c rest)
    have hr : sep ∉ rest := fun hm => h (List.mem_cons_of_mem c hm)
    simp only [List.cons_append, splitOnChar, if_neg hc, List.append_eq, ih hr]

lemma splitComma_two (a b : PyStr) (ha : ',' ∉ a) (hb : ',' ∉ b) :
    splitOnChar ',' (a ++ ',' :: b) = [a, b] := by
  rw [splitOnChar_append ',' a b ha, splitOnChar_no_sep ',' b hb]

lemma splitComma_three (a b c : PyStr) (ha : ',' ∉ a) (hb : ',' ∉ b)
    (hc : ',' ∉ c) :
    splitOnChar ',' (a ++ ',' :: (b ++ ',' :: c)) = [a, b, c] := by
  rw [splitOnChar_append ',' a (b ++ ',' :: c) ha, splitComma_two b c hb hc]

/-- C8: a non-event inventory line is comma-split past split_index into the
EPC, then the TID exactly when configured with_tid, then the RSSI exactly
when configured with_rssi (third field with TID, second without), and in
report mode a trailing seen count from the last field; the sampled line
with rssi 1807 decodes to one tag, and a NO TAGS FOUND event decodes to
zero tags with no error. -/
theorem c8_inventory_decode :
    (∀ (e : Char) (etl rssiStr : PyStr) (r ts : Int),
      e ≠ '<' → ',' ∉ (e :: etl) → ',' ∉ rssiStr → parseIntOpt rssiStr = some r →
      parse_inventory [pstr "+INV: " ++ (e :: etl) ++ ',' :: rssiStr] ts 6
          false true false false =
        .ok [set_rssi (set_timestamp (set_epc [] (e :: etl)) ts) r]) ∧
    (∀ (e : Char) (etl tid rssiStr : PyStr) (r ts : Int),
      e ≠ '<' → ',' ∉ (e :: etl) → ',' ∉ tid → ',' ∉ rssiStr →
      parseIntOpt rssiStr = some r →
      parse_inventory [pstr "+INV: " ++ (e :: etl) ++ ',' :: (tid ++ ',' :: rssiStr)]
          ts 6 true true false false =
        .ok [set_rssi (set_tid (set_timestamp (set_epc [] (e :: etl)) ts) tid) r]) ∧
    (∀ (e : Char) (etl rssiStr cntStr : PyStr) (r c ts : Int),
      e ≠ '<' → ',' ∉ (e :: etl) → ',' ∉ rssiStr → ',' ∉ cntStr →
      parseIntOpt rssiStr = some r → parseIntOpt cntStr = some c →
      parse_inventory
          [pstr "+INVR: " ++ (e :: etl) ++ ',' :: (rssiStr ++ ',' :: cntStr)]
          ts 7 false true false true =
        .ok [set_seen_count (set_rssi (set_timestamp (set_epc [] (e :: etl)) ts) r) c]) ∧
    (parse_inventory [pstr "+INV: E2001234,1807"] 100 6 false true false false =
      .ok [set_rssi (set_timestamp (set_epc [] (pstr "E2001234")) 100) 1807]) ∧
    (parse_inventory [pstr "+INV: <NO TAGS FOUND>"] 100 6 false true false false =
      .ok []) := by
  refine ⟨fun e etl rssiStr r ts he hc hcr hr => ?_,
    fun e etl tid rssiStr r ts he hc hct hcr hr => ?_,
    fun e etl rssiStr cntStr r c ts he hc hcr hcc hr hcnt => ?_,
    by decide, by decide⟩
  · rw [show pstr "+INV: " = ['+', 'I', 'N', 'V', ':', ' '] from rfl]
    have hsplit : splitOnChar ',' (e :: (etl ++ ',' :: rssiStr)) =
        [e :: etl, rssiStr] := by
      have h1 := splitComma_two (e :: etl) rssiStr hc hcr
      simpa using h1
    simp [parse_inventory, inv_loop, buildInvTag, pyGet, hsplit, he, hr]
  · rw [show pstr "+INV: " = ['+', 'I', 'N', 'V', ':', ' '] from rfl]
    have hsplit : splitOnChar ',' (e :: (etl ++ ',' :: (tid ++ ',' :: rssiStr))) =
        [e :: etl, tid, rssiStr] := by
      have h1 := splitComma_three (e :: etl) tid rssiStr hc hct hcr
      simpa using h1
    simp [parse_inventory, inv_loop, buildInvTag, pyGet, hsplit, he, hr]
  · rw [show pstr "+INVR: " = ['+', 'I', 'N', 'V', 'R', ':', ' '] from rfl]
    have hsplit : splitOnChar ',' (e :: (etl ++ ',' :: (rssiStr ++ ',' :: cntStr))) =
        [e :: etl, rssiStr, cntStr] := by
      have h1 := splitComma_three (e :: etl) rssiStr cntStr hc hcr hcc
      simpa using h1
    simp [parse_inventory, inv_loop, buildInvTag, pyGet, hsplit, he, hr, hcnt]

theorem c8_inventory_decode_witness :
    parse_inventory [pstr "+INV: " ++ ('E' :: pstr "2001234") ++ ',' :: pstr "1807"]
        100 6 false true false false =
      .ok [set_rssi (set_timestamp (set_epc [] ('E' :: pstr "2001234")) 100) 1807] :=
  c8_inventory_decode.1 'E' (pstr "2001234") (pstr "1807") 1807 100 (by decide)
    (by decide) (by decide) (by decide)

/-- All elements of the list are equal to one another. -/
def allSame (l : List Nat) : Prop := ∀ x ∈ l, ∀ y ∈ l, x = y

/-- The masked PC base values of a list of tag records, None when any data
field fails to parse as hexadecimal. -/
def maskedAll : List Tag → Option (List Nat)
  | [] => some []
  | t :: ts_ =>
    match maskedPc t, maskedAll ts_ with
    | some d, some ds => some (d :: ds)
    | _, _ => none

/-- The consistency loop on the masked values themselves. -/
def pc_scan_vals : List Nat → Nat → PcScan
  | [], pc => .ok pc
  | d :: ds, pc =>
    if pc = 0 then pc_scan_vals ds d
    else if d ≠ pc then .ambiguous
    else pc_scan_vals ds pc

lemma pc_scan_eq_vals (tags : List Tag) (ms : List Nat)
    (h : maskedAll tags = some ms) : ∀ pc, pc_scan tags pc = pc_scan_vals ms pc := by
  induction tags generalizing ms with
  | nil =>
    intro pc
    simp only [maskedAll, Option.some.injEq] at h
    rw [← h]
    rfl
  | cons t ts_ ih =>
    intro pc
    simp only [maskedAll] at h
    cases hm : maskedPc t with
    | none => rw [hm] at h; exact absurd h (by simp)
    | some d =>
      rw [hm] at h
      cases hms : maskedAll ts_ with
      | none => rw [hms] at h; exact absurd h (by simp)
      | some ds =>
        rw [hms] at h
        simp only [Option.some.injEq] at h
        obtain ⟨d0, hd0, hdm⟩ := Option.map_eq_some'.mp hm
        subst hdm
        rw [← h]
        simp only [pc_scan, hd0, pc_scan_vals]
        by_cases hpc : pc = 0
        · simp [hpc, ih ds hms]
        · simp [hpc, ih ds hms]

lemma pc_scan_vals_nonzero (ds : List Nat) (pc : Nat) (hpc : pc ≠ 0) :
    pc_scan_vals ds pc = .ambiguous ↔ ∃ d ∈ ds, d ≠ pc := by
  induction ds with
  | nil => simp [pc_scan_vals]
  | cons d ds ih =>
    simp only [pc_scan_vals, if_neg hpc]
    by_cases hd : d = pc
    · subst hd
      simp [ih]
    · simp [hd]

lemma pc_scan_vals_zero (ds : List Nat) :
    pc_scan_vals ds 0 = .ambiguous ↔ ¬ allSame (ds.dropWhile (· == 0)) := by
  induction ds with
  | nil =>
    simp [pc_scan_vals, allSame]
  | cons d ds ih =>
    simp only [pc_scan_vals, eq_self_iff_true, if_true]
    by_cases hd : d = 0
    · subst hd
      simpa [List.dropWhile] using ih
    · rw [pc_scan_vals_nonzero ds d hd]
      have hb : (d == 0) = false := by simp [hd]
      have hdw : (d :: ds).dropWhile (· == 0) = d :: ds := by
        simp [List.dropWhile, hb]
      rw [hdw]
      constructor
      · rintro ⟨x, hx, hne⟩ hall
        exact hne (hall x (List.mem_cons_of_mem d hx) d (List.mem_cons_self d ds))
      · intro hall
        by_contra hnone
        push_neg at hnone
        refine hall ?_
        intro x hx y hy
        rcases List.mem_cons.mp hx with rfl | hx2
        · rcases List.mem_cons.mp hy with rfl | hy2
          · rfl
          · exact (hnone y hy2).symm
        · rcases List.mem_cons.mp hy with rfl | hy2
          · exact hnone x hx2
          · rw [hnone x hx2, hnone y hy2]

/-- C4 counterexample: two present tags with masked PC bases 0 and 5 are
distinct, yet the run does not raise the field-ambiguity error and issues
both writes, because the loop treats the accumulator value 0 as unset. -/
theorem c4_counterexample_zero_base :
    ((read_tag_data_resp
        [pstr "+READ: AAAA1111,OK,3000", pstr "+READ: BBBB2222,OK,3005"]
        (pstr "PC") 50).map (fun l => l.map maskedPc) = some [some 0, some 5]) ∧
    (0 : Nat) ≠ 5 ∧
    (write_tag_epc_run (pstr "AAAABBBB") 50
        [pstr "+READ: AAAA1111,OK,3000", pstr "+READ: BBBB2222,OK,3005"]
        [pstr "+WRT: AAAA1111,OK", pstr "+WRT: BBBB2222,OK"]
        [pstr "+WRT: AAAA1111,OK", pstr "+WRT: BBBB2222,OK"]).epcWriteSent = true ∧
    (write_tag_epc_run (pstr "AAAABBBB") 50
        [pstr "+READ: AAAA1111,OK,3000", pstr "+READ: BBBB2222,OK,3005"]
        [pstr "+WRT: AAAA1111,OK", pstr "+WRT: BBBB2222,OK"]
        [pstr "+WRT: AAAA1111,OK", pstr "+WRT: BBBB2222,OK"]).pcWriteSent = true ∧
    (write_tag_epc_run (pstr "AAAABBBB") 50
        [pstr "+READ: AAAA1111,OK,3000", pstr "+READ: BBBB2222,OK,3005"]
        [pstr "+WRT: AAAA1111,OK", pstr "+WRT: BBBB2222,OK"]
        [pstr "+WRT: AAAA1111,OK", pstr "+WRT: BBBB2222,OK"]).result ≠
      .exc (pstr "Different tags are in the field, which would result in data loss when writing. Please edit individually.") := by
  decide

/-- C4 amended: the consistency loop raises the field-ambiguity error
exactly when, after skipping the leading records whose masked PC base is 0
(the accumulator treats 0 as unset), the remaining masked values are not
all equal; whenever it does raise, the run returns that error and neither
write command is issued. -/
theorem c4_pc_ambiguity_amended :
    (∀ (tags : List Tag) (ms : List Nat), maskedAll tags = some ms →
      (pc_scan tags 0 = .ambiguous ↔ ¬ allSame (ms.dropWhile (· == 0)))) ∧
    (∀ (new_epc : PyStr) (ts : Int) (pcReadLines epcW pcW : List PyStr)
        (tags : List Tag),
      new_epc.length % 4 = 0 →
      read_tag_data_resp pcReadLines (pstr "PC") ts = some tags →
      tags ≠ [] →
      pc_scan tags 0 = .ambiguous →
      write_tag_epc_run new_epc ts pcReadLines epcW pcW =
        ⟨.exc (pstr "Different tags are in the field, which would result in data loss when writing. Please edit individually."),
          false, false, none⟩) := by
  constructor
  · intro tags ms h
    rw [pc_scan_eq_vals tags ms h 0, pc_scan_vals_zero]
  · intro new_epc ts pcReadLines epcW pcW tags hlen hread htags hscan
    simp [write_tag_epc_run, hlen, hread, htags, hscan]

theorem c4_pc_ambiguity_amended_witness :
    pc_scan [[(pstr "data", TagVal.s (pstr "3005"))],
        [(pstr "data", TagVal.s (pstr "300A"))]] 0 = .ambiguous ↔
      ¬ allSame ([5, 10].dropWhile (· == 0)) :=
  c4_pc_ambiguity_amended.1 _ [5, 10] (by decide)

lemma dictGet_dictSet_self {α : Type} (t : List (PyStr × α)) (k : PyStr) (v : α) :
    dictGet (dictSet t k v) k = some v := by
  induction t with
  | nil => simp [dictSet, dictGet]
  | cons p rest ih =>
    obtain ⟨k0, v0⟩ := p
    by_cases h : k0 = k
    · simp [dictSet, dictGet, h]
    · simp [dictSet, dictGet, h, ih]

lemma dictGet_dictSet_ne {α : Type} (t : List (PyStr × α)) (k k' : PyStr) (v : α)
    (h : k ≠ k') : dictGet (dictSet t k v) k' = dictGet t k' := by
  induction t with
  | nil => simp [dictSet, dictGet, h]
  | cons p rest ih =>
    obtain ⟨k0, v0⟩ := p
    by_cases h0 : k0 = k
    · subst h0
      simp [dictSet, dictGet, h]
    · simp [dictSet, dictGet, h0, ih]

lemma getStr_set_other (t : Tag) (k k' : PyStr) (v : TagVal) (d : PyStr)
    (h : k ≠ k') : getStr (set_value t k (some v)) k' d = getStr t k' d := by
  simp [getStr, set_value, dictGet_dictSet_ne t k k' v h]

@[simp] lemma get_epc_set_epc (t : Tag) (v : PyStr) : get_epc (set_epc t v) = v := by
  simp [get_epc, set_epc, set_value, getStr, dictGet_dictSet_self]

@[simp] lemma get_epc_set_timestamp (t : Tag) (ts : Int) :
    get_epc (set_timestamp t ts) = get_epc t := by
  simp only [get_epc, set_timestamp]
  exact getStr_set_other _ _ _ _ _ (by decide)

@[simp] lemma get_epc_set_data (t : Tag) (v : PyStr) :
    get_epc (set_data t v) = get_epc t := by
  simp only [get_epc, set_data]
  exact getStr_set_other _ _ _ _ _ (by decide)

@[simp] lemma get_epc_set_error_message (t : Tag) (m : PyStr) :
    get_epc (set_error_message t m) = get_epc t := by
  simp only [get_epc, set_error_message]
  rw [getStr_set_other _ _ _ _ _ (by decide : pstr "has_error" ≠ pstr "epc"),
    getStr_set_other _ _ _ _ _ (by decide : pstr "error_message" ≠ pstr "epc")]

@[simp] lemma get_epc_set_old_epc (t : Tag) (v : TagVal) :
    get_epc (set_value t (pstr "old_epc") (some v)) = get_epc t := by
  simp only [get_epc]
  exact getStr_set_other _ _ _ _ _ (by decide)

@[simp] lemma get_epc_set_pc (t : Tag) (v : TagVal) :
    get_epc (set_value t (pstr "pc") (some v)) = get_epc t := by
  simp only [get_epc]
  exact getStr_set_other _ _ _ _ _ (by decide)

@[simp] lemma get_data_set_data (t : Tag) (v : PyStr) : get_data (set_data t v) = v := by
  simp [get_data, set_data, set_value, getStr, dictGet_dictSet_self]

@[simp] lemma get_error_message_set (t : Tag) (m : PyStr) :
    get_error_message (set_error_message t m) = m := by
  simp only [get_error_message, set_error_message]
  rw [getStr_set_other _ _ _ _ _ (by decide : pstr "has_error" ≠ pstr "error_message")]
  simp [getStr, set_value, dictGet_dictSet_self]

@[simp] lemma has_error_set_error_message (t : Tag) (m : PyStr) :
    has_error (set_error_message t m) = decide (m ≠ []) := by
  simp [has_error, set_error_message, set_value, dictGet_dictSet_self]

@[simp] lemma has_error_set_epc (t : Tag) (v : PyStr) :
    has_error (set_epc t v) = has_error t := by
  simp [has_error, set_epc, set_value, dictGet_dictSet_ne _ _ _ _
    (by decide : pstr "epc" ≠ pstr "has_error")]

@[simp] lemma has_error_set_timestamp (t : Tag) (ts : Int) :
    has_error (set_timestamp t ts) = has_error t := by
  simp [has_error, set_timestamp, set_value, dictGet_dictSet_ne _ _ _ _
    (by decide : pstr "timestamp" ≠ pstr "has_error")]

@[simp] lemma has_error_set_data (t : Tag) (v : PyStr) :
    has_error (set_data t v) = has_error t := by
  simp [has_error, set_data, set_value, dictGet_dictSet_ne _ _ _ _
    (by decide : pstr "data" ≠ pstr "has_error")]

@[simp] lemma has_error_set_old_epc (t : Tag) (v : TagVal) :
    has_error (set_value t (pstr "old_epc") (some v)) = has_error t := by
  simp [has_error, set_value, dictGet_dictSet_ne _ _ _ _
    (by decide : pstr "old_epc" ≠ pstr "has_error")]

@[simp] lemma has_error_set_pc (t : Tag) (v : TagVal) :
    has_error (set_value t (pstr "pc") (some v)) = has_error t := by
  simp [has_error, set_value, dictGet_dictSet_ne _ _ _ _
    (by decide : pstr "pc" ≠ pstr "has_error")]

@[simp] lemma has_error_nil : has_error ([] : Tag) = false := rfl

lemma getStr_old_epc_set_error_message (t : Tag) (m : PyStr) :
    getStr (set_error_message t m) (pstr "old_epc") [] =
      getStr t (pstr "old_epc") [] := by
  simp only [set_error_message]
  rw [getStr_set_other _ _ _ _ _ (by decide : pstr "has_error" ≠ pstr "old_epc"),
    getStr_set_other _ _ _ _ _ (by decide : pstr "error_message" ≠ pstr "old_epc")]

lemma getStr_old_epc_set (t : Tag) (v : TagVal) :
    getStr (set_value t (pstr "old_epc") (some v)) (pstr "old_epc") [] =
      match v with | .s s => s | _ => [] := by
  simp [getStr, set_value, dictGet_dictSet_self]
  cases v <;> rfl

/-- C5 counterexample: with EPC-write error ERRA and PC-write error ERRB for
the same pre-rewrite EPC, the reconciled record's chained message re-uses the
EPC-write error (epc not written - ERRA), not the PC-write error the claim
names. -/
theorem c5_counterexample_chained_message :
    ((write_tag_epc_run (pstr "AAAABBBB") 60
        [pstr "+READ: ABCD0123,OK,3000"]
        [pstr "+WRT: ABCD0123,ERRA"]
        [pstr "+WRT: ABCD0123,ERRB"]).result =
      .ok [[(pstr "epc", .s (pstr "ABCD0123")), (pstr "timestamp", .n 60),
        (pstr "error_message", .s (pstr "epc not written - ERRA")),
        (pstr "has_error", .b true)]]) ∧
    pstr "epc not written - ERRA" ≠ pstr "epc not written - ERRB" := by
  decide

/-- C5 amended: for a tag keyed by its pre-rewrite EPC that appears in both
write responses, an EPC-write success followed by a PC-write failure yields
the record with message epc written, epc length not updated! and has_error
set; when both writes fail the record's message chains epc not written -
followed by the EPC-write error message (the record's own previous error),
not the PC-write error. -/
theorem c5_reconciliation_amended :
    (∀ (e : Char) (etl errB : PyStr) (ts : Int),
      e ≠ '<' → ',' ∉ (e :: etl) → errB ≠ pstr "OK" → errB ≠ [] → ',' ∉ errB →
      ((write_tag_epc_run (pstr "AAAABBBB") ts
          [pstr "+READ: " ++ (e :: etl) ++ ',' :: (pstr "OK" ++ ',' :: pstr "3000")]
          [pstr "+WRT: " ++ (e :: etl) ++ ',' :: pstr "OK"]
          [pstr "+WRT: " ++ (e :: etl) ++ ',' :: errB]).result =
        .ok [set_error_message
          (set_value (set_epc (set_timestamp (set_epc [] (e :: etl)) ts)
              (pstr "AAAABBBB"))
            (pstr "old_epc") (some (.s (e :: etl))))
          (pstr "epc written, epc length not updated!")]) ∧
      get_error_message (set_error_message
          (set_value (set_epc (set_timestamp (set_epc [] (e :: etl)) ts)
              (pstr "AAAABBBB"))
            (pstr "old_epc") (some (.s (e :: etl))))
          (pstr "epc written, epc length not updated!")) =
        pstr "epc written, epc length not updated!" ∧
      has_error (set_error_message
          (set_value (set_epc (set_timestamp (set_epc [] (e :: etl)) ts)
              (pstr "AAAABBBB"))
            (pstr "old_epc") (some (.s (e :: etl))))
          (pstr "epc written, epc length not updated!")) = true ∧
      get_epc (set_error_message
          (set_value (set_epc (set_timestamp (set_epc [] (e :: etl)) ts)
              (pstr "AAAABBBB"))
            (pstr "old_epc") (some (.s (e :: etl))))
          (pstr "epc written, epc length not updated!")) = pstr "AAAABBBB" ∧
      getStr (set_error_message
          (set_value (set_epc (set_timestamp (set_epc [] (e :: etl)) ts)
              (pstr "AAAABBBB"))
            (pstr "old_epc") (some (.s (e :: etl))))
          (pstr "epc written, epc length not updated!")) (pstr "old_epc") [] =
        e :: etl) ∧
    (∀ (e : Char) (etl errA errB : PyStr) (ts : Int),
      e ≠ '<' → ',' ∉ (e :: etl) → errA ≠ pstr "OK" → errA ≠ [] → ',' ∉ errA →
      errB ≠ pstr "OK" → errB ≠ [] → ',' ∉ errB →
      ((write_tag_epc_run (pstr "AAAABBBB") ts
          [pstr "+READ: " ++ (e :: etl) ++ ',' :: (pstr "OK" ++ ',' :: pstr "3000")]
          [pstr "+WRT: " ++ (e :: etl) ++ ',' :: errA]
          [pstr "+WRT: " ++ (e :: etl) ++ ',' :: errB]).result =
        .ok [set_error_message
          (set_error_message (set_timestamp (set_epc [] (e :: etl)) ts) errA)
          (pstr "epc not written - " ++ errA)]) ∧
      get_error_message (set_error_message
          (set_error_message (set_timestamp (set_epc [] (e :: etl)) ts) errA)
          (pstr "epc not written - " ++ errA)) = pstr "epc not written - " ++ errA ∧
      has_error (set_error_message
          (set_error_message (set_timestamp (set_epc [] (e :: etl)) ts) errA)
          (pstr "epc not written - " ++ errA)) = true ∧
      get_epc (set_error_message
          (set_error_message (set_timestamp (set_epc [] (e :: etl)) ts) errA)
          (pstr "epc not written - " ++ errA)) = e :: etl) := by
  have hlen : (pstr "AAAABBBB").length = 8 := by decide
  have hhex : parseHexOpt (pstr "3000") = some 12288 := by decide
  have hlow : lowerStr (pstr "PC") = pstr "pc" := by decide
  constructor
  · intro e etl errB ts he hc hBok hBnil hBc
    have hsr : splitOnChar ','
        (e :: (etl ++ ',' :: (pstr "OK" ++ ',' :: pstr "3000"))) =
        [e :: etl, pstr "OK", pstr "3000"] := by
      simpa using splitComma_three (e :: etl) (pstr "OK") (pstr "3000") hc
        (by decide) (by decide)
    have hs1 : splitOnChar ',' (e :: (etl ++ ',' :: pstr "OK")) =
        [e :: etl, pstr "OK"] := by
      simpa using splitComma_two (e :: etl) (pstr "OK") hc (by decide)
    have hs2 : splitOnChar ',' (e :: (etl ++ ',' :: errB)) = [e :: etl, errB] := by
      simpa using splitComma_two (e :: etl) errB hc hBc
    rw [show pstr "+READ: " = ['+', 'R', 'E', 'A', 'D', ':', ' '] from rfl,
      show pstr "+WRT: " = ['+', 'W', 'R', 'T', ':', ' '] from rfl]
    refine ⟨?_, by simp, ?_, by simp, ?_⟩
    · simp [write_tag_epc_run, read_tag_data_resp, parse_tag_responses,
        epc_write_phase, pc_write_phase, pc_scan, pyGet, hlen, hhex, hlow,
        hsr, hs1, hs2, he, hBok, hBnil, dictSet, dictGet]
    · simp [hBnil]
      decide
    · rw [getStr_old_epc_set_error_message, getStr_old_epc_set]
  · intro e etl errA errB ts he hc hAok hAnil hAc hBok hBnil hBc
    have hsr : splitOnChar ','
        (e :: (etl ++ ',' :: (pstr "OK" ++ ',' :: pstr "3000"))) =
        [e :: etl, pstr "OK", pstr "3000"] := by
      simpa using splitComma_three (e :: etl) (pstr "OK") (pstr "3000") hc
        (by decide) (by decide)
    have hs1 : splitOnChar ',' (e :: (etl ++ ',' :: errA)) = [e :: etl, errA] := by
      simpa using splitComma_two (e :: etl) errA hc hAc
    have hs2 : splitOnChar ',' (e :: (etl ++ ',' :: errB)) = [e :: etl, errB] := by
      simpa using splitComma_two (e :: etl) errB hc hBc
    rw [show pstr "+READ: " = ['+', 'R', 'E', 'A', 'D', ':', ' '] from rfl,
      show pstr "+WRT: " = ['+', 'W', 'R', 'T', ':', ' '] from rfl]
    refine ⟨?_, by simp, ?_, by simp⟩
    · simp [write_tag_epc_run, read_tag_data_resp, parse_tag_responses,
        epc_write_phase, pc_write_phase, pc_scan, pyGet, hlen, hhex, hlow,
        hsr, hs1, hs2, he, hAok, hAnil, hBok, hBnil, dictSet, dictGet]
    · simp [hAnil]

theorem c5_reconciliation_amended_witness :
    ((write_tag_epc_run (pstr "AAAABBBB") 60
        [pstr "+READ: " ++ ('A' :: pstr "BCD0123") ++
          ',' :: (pstr "OK" ++ ',' :: pstr "3000")]
        [pstr "+WRT: " ++ ('A' :: pstr "BCD0123") ++ ',' :: pstr "ERRA"]
        [pstr "+WRT: " ++ ('A' :: pstr "BCD0123") ++ ',' :: pstr "ERRB"]).result =
      .ok [set_error_message
        (set_error_message (set_timestamp (set_epc [] ('A' :: pstr "BCD0123")) 60)
          (pstr "ERRA"))
        (pstr "epc not written - " ++ pstr "ERRA")]) ∧
    get_error_message (set_error_message
        (set_error_message (set_timestamp (set_epc [] ('A' :: pstr "BCD0123")) 60)
          (pstr "ERRA"))
        (pstr "epc not written - " ++ pstr "ERRA")) =
      pstr "epc not written - " ++ pstr "ERRA" ∧
    has_error (set_error_message
        (set_error_message (set_timestamp (set_epc [] ('A' :: pstr "BCD0123")) 60)
          (pstr "ERRA"))
        (pstr "epc not written - " ++ pstr "ERRA")) = true ∧
    get_epc (set_error_message
        (set_error_message (set_timestamp (set_epc [] ('A' :: pstr "BCD0123")) 60)
          (pstr "ERRA"))
        (pstr "epc not written - " ++ pstr "ERRA")) = 'A' :: pstr "BCD0123" :=
  c5_reconciliation_amended.2 'A' (pstr "BCD0123") (pstr "ERRA") (pstr "ERRB") 60
    (by decide) (by decide) (by decide) (by decide) (by decide) (by decide)
    (by decide) (by decide)
